import Mathlib

/-!
Verification of the b2-js Backblaze B2 client library core.

Shallow embedding of the request executor, the upload-URL pools, the
single-part upload routine, the part upload routine and the streaming
upload engine, translated from the TypeScript sources:

  src/unnamed/part_005  (class B2: request executor, partSize getter)
  src/unnamed/part_000  (uploadPart: per-part upload with its own retry loop)
  src/unnamed/part_002  (PendingPart and FileUploadStream: streaming engine)
  src/src/bucket.ts     (Bucket.upload, Bucket.uploadSinglePart, SinglePartUpload)
  src/unnamed/part_008  (AppendHashStream: deferred-hash trailer)
  src/src/api-operations/authorize-account.ts (File facade)

Network interaction is modelled by a finite trace of fetch outcomes
(one per attempt); the SHA-1 primitive is an explicit parameter
(a function from byte lists to 20-byte digests), since the spec treats
the hash primitive as an external collaborator.  Bytes are natural
numbers; buffers are lists of bytes.
-/

set_option autoImplicit false

namespace B2JS

/-- Error kinds thrown by the library, from src/unnamed/part_004 (errors.ts):
the BackblazeServerError and BackblazeLibraryError taxonomies, plus a
constructor for a thrown transport-layer (fetch) failure. -/
inductive B2Error where
  | badRequest
  | unauthorizedRequest
  | downloadCapExceeded
  | expiredCredentials
  | forbidden
  | rangeNotSatisfiable
  | internalServerError
  | requestTimeout
  | tooManyRequests
  | serviceUnavailable
  | unknownServerError
  | usageCapExceeded
  | internalLibrary
  | transportFailure
  deriving DecidableEq, Repr

/-- Hex digit characters as produced by Node's hash.digest with the hex
encoding: lowercase. -/
def hexDigitChar (n : Nat) : Char :=
  if n = 0 then '0'
  else if n = 1 then '1'
  else if n = 2 then '2'
  else if n = 3 then '3'
  else if n = 4 then '4'
  else if n = 5 then '5'
  else if n = 6 then '6'
  else if n = 7 then '7'
  else if n = 8 then '8'
  else if n = 9 then '9'
  else if n = 10 then 'a'
  else if n = 11 then 'b'
  else if n = 12 then 'c'
  else if n = 13 then 'd'
  else if n = 14 then 'e'
  else 'f'

/-- Two lowercase hex characters for one byte. -/
def hexByteChars (b : Nat) : List Char :=
  [hexDigitChar (b / 16 % 16), hexDigitChar (b % 16)]

/-- Hex encoding of a byte list, two characters per byte, as produced by
Node's hash.digest with the hex encoding. -/
def hexOfBytes (bs : List Nat) : List Char :=
  (bs.map hexByteChars).flatten

/-- Hex encoding as a string. -/
def hexStringOfBytes (bs : List Nat) : String :=
  String.mk (hexOfBytes bs)

/-- A concrete stand-in for the external SHA-1 primitive, used only to
instantiate witness theorems: it returns a constant 20-byte digest. -/
def constDigest : List Nat → List Nat := fun _ => List.replicate 20 0

/-! ## Request executor: B2.request (src/unnamed/part_005, lines 160-246)

The executor is driven by a trace of fetch outcomes, one entry per
attempted fetch.  A transport failure corresponds to the fetch promise
rejecting (the catch block); an HTTP response carries the status and,
for non-200 responses, the body code field.  Header construction and
the re-authorization side effect (which only refreshes the token used
in headers) are elided; the classification and retry structure is
translated line by line. -/

/-- Outcome of one fetch attempt, as seen by B2.request. -/
inductive FetchOutcome where
  | transportError
  | response (status : Nat) (code : String)
  deriving DecidableEq, Repr

/-- Result of a run of B2.request over a finite trace. -/
inductive RequestResult where
  /-- HTTP 200: the response is returned; the unconsumed trace remains. -/
  | success (remaining : List FetchOutcome)
  /-- a BackblazeServerError was thrown. -/
  | failure (e : B2Error)
  /-- the finite trace ran out while the executor was still retrying. -/
  | outOfTrace
  deriving DecidableEq, Repr

/-- Model of the private method B2.request (src/unnamed/part_005 lines
160-246).  The maxRetries and backoff arguments are the option record
after defaulting (5 and 150); retries is the recursion counter.  The
catch around fetch retries a transport error with doubled backoff and
an incremented counter, without consulting maxRetries.  In the inner
switch on the body status, JavaScript picks the first matching case
label, so the terminal case for status 500 at line 219 shadows the
retrying case 500 at line 224; status 408 falls through the (then
false) guards of the shadowed 500 case and the 503 case into the
backoff retry. -/
def B2.request (maxRetries backoff retries : Nat) :
    List FetchOutcome → RequestResult
  | [] => .outOfTrace
  | o :: rest =>
    match o with
    | .transportError =>
      B2.request maxRetries (backoff * 2) (retries + 1) rest
    | .response status code =>
      if status = 200 then .success rest
      else if code = "bad_request" then .failure .badRequest
      else if code = "unauthorized" then .failure .unauthorizedRequest
      else if code = "download_cap_exceeded" then .failure .downloadCapExceeded
      else if code = "bad_auth_token" ∨ code = "expired_auth_token" then
        if retries < maxRetries then
          B2.request maxRetries backoff (retries + 1) rest
        else .failure .expiredCredentials
      else if status = 400 then .failure .badRequest
      else if status = 403 then .failure .forbidden
      else if status = 416 then .failure .rangeNotSatisfiable
      else if status = 500 then .failure .internalServerError
      else if status = 408 then
        if retries ≥ maxRetries then .failure .requestTimeout
        else B2.request maxRetries (backoff * 2) (retries + 1) rest
      else if status = 503 then
        if retries ≥ maxRetries then .failure .serviceUnavailable
        else B2.request maxRetries (backoff * 2) (retries + 1) rest
      else .failure .unknownServerError

/-! ## Part size selection (src/unnamed/part_005 lines 112-119 and
src/unnamed/part_002 lines 37-40) -/

/-- The part-size-relevant fields of the b2_authorize_account response. -/
structure AuthInfo where
  absoluteMinimumPartSize : Nat
  recommendedPartSize : Nat
  deriving DecidableEq, Repr

/-- Model of the B2.partSize getter (src/unnamed/part_005 lines 112-119):
a user-configured size is clamped below by absoluteMinimumPartSize via
Math.max; otherwise recommendedPartSize is used. -/
def B2.partSize (userSetPartSize : Option Nat) (auth : AuthInfo) : Nat :=
  match userSetPartSize with
  | some s => max s auth.absoluteMinimumPartSize
  | none => auth.recommendedPartSize

/-- Model of the FileUploadStream.partSize getter (src/unnamed/part_002
lines 37-40).  The getter body is two return statements; the first one
returns absoluteMinimumPartSize, so the second (recommendedPartSize) is
unreachable dead code and the user-configured B2.partSize is never
consulted. -/
def FileUploadStream.partSize (auth : AuthInfo) : Nat :=
  auth.absoluteMinimumPartSize

/-! ## Bucket.upload routing (src/src/bucket.ts lines 278-305) -/

/-- The path chosen by Bucket.upload for a Buffer. -/
inductive UploadRoute where
  /-- uploadSinglePart is called with the given contentLength. -/
  | singlePart (contentLength : Nat)
  /-- a FileUploadStream is created and ended with the buffer, so the
  streaming engine receives the single chunk recorded here. -/
  | streaming (chunks : List (List Nat))
  deriving DecidableEq, Repr

/-- Model of Bucket.upload for a Buffer (src/src/bucket.ts lines
278-305): contentLength is the buffer byteLength, always defined, and
the single-part path is taken when it is at most b2.partSize; otherwise
a write stream is created and ended with the whole buffer. -/
def Bucket.uploadRoute (partSize : Nat) (data : List Nat) : UploadRoute :=
  let contentLength := data.length
  if contentLength ≤ partSize then .singlePart contentLength
  else .streaming [data]

/-! ## Claims C2, C3, C4, C8 -/

/-- C2: for every Buffer passed to Bucket.upload, the single-part path is
taken if and only if the byte length is at most partSize; a buffer of
exactly partSize bytes goes single-part, and any longer buffer goes to
the streaming path. -/
theorem c2_upload_single_part_iff (partSize : Nat) (data : List Nat) :
    (Bucket.uploadRoute partSize data = .singlePart data.length ↔
      data.length ≤ partSize) ∧
    (data.length = partSize →
      Bucket.uploadRoute partSize data = .singlePart partSize) ∧
    (partSize < data.length →
      Bucket.uploadRoute partSize data = .streaming [data]) := by
  refine ⟨⟨fun h => ?_, fun h => ?_⟩, fun h => ?_, fun h => ?_⟩
  · by_contra hgt
    simp only [Bucket.uploadRoute, if_neg (by omega : ¬ data.length ≤ partSize)] at h
    exact UploadRoute.noConfusion h
  · simp [Bucket.uploadRoute, h]
  · subst h
    simp [Bucket.uploadRoute]
  · simp [Bucket.uploadRoute, Nat.not_le.mpr h]

/-- C2 witness: at the exact boundary (partSize 5, five bytes) the
single-part path is taken. -/
theorem c2_upload_single_part_iff_witness :
    ([104, 101, 108, 108, 111] : List Nat).length = 5 ∧
    Bucket.uploadRoute 5 [104, 101, 108, 108, 111] = .singlePart 5 :=
  ⟨by decide, (c2_upload_single_part_iff 5 [104, 101, 108, 108, 111]).2.1 (by decide)⟩

/-- C3: a 500 response whose body code is not specially handled makes
B2.request throw InternalServerError immediately, on the very first
attempt, with the default budget maxRetries 5 untouched: the retrying
case for status 500 is shadowed by the earlier terminal case label, so
the 200 available next in the trace is never reached. -/
theorem c3_request_500_fails_without_retry :
    B2.request 5 150 0
      [.response 500 "internal_error", .response 200 ""] =
      .failure .internalServerError := by decide

/-- C4 counterexample: with the default budget maxRetries 5, a trace of
seven consecutive transport failures followed by a 200 ends in success:
the executor retried a transport error seven times, beyond the budget,
and never propagated the transport error. -/
theorem c4_transport_retry_beyond_budget :
    B2.request 5 150 0
      (List.replicate 7 FetchOutcome.transportError ++ [.response 200 ""]) =
      .success [] := by decide

/-- C4 amended: the catch around fetch retries a transport failure
unconditionally, with doubled backoff and an incremented retry counter,
without ever consulting maxRetries; consequently any run of transport
failures is absorbed, and a trace of nothing but transport failures
never produces an error (the transport error is never propagated). -/
theorem c4_transport_retry_unbounded :
    (∀ (maxRetries backoff retries n : Nat) (rest : List FetchOutcome),
      B2.request maxRetries backoff retries
        (List.replicate n FetchOutcome.transportError ++ rest) =
      B2.request maxRetries (backoff * 2 ^ n) (retries + n) rest) ∧
    (∀ (maxRetries backoff retries n : Nat),
      B2.request maxRetries backoff retries
        (List.replicate n FetchOutcome.transportError) = .outOfTrace) := by
  have habs : ∀ (n maxRetries backoff retries : Nat) (rest : List FetchOutcome),
      B2.request maxRetries backoff retries
        (List.replicate n FetchOutcome.transportError ++ rest) =
      B2.request maxRetries (backoff * 2 ^ n) (retries + n) rest := by
    intro n
    induction n with
    | zero => intro maxRetries backoff retries rest; simp
    | succ n ih =>
      intro maxRetries backoff retries rest
      rw [List.replicate_succ, List.cons_append, B2.request, ih]
      congr 1
      · ring
      · omega
  refine ⟨fun maxRetries backoff retries n rest =>
    habs n maxRetries backoff retries rest,
    fun maxRetries backoff retries n => ?_⟩
  have := habs n maxRetries backoff retries []
  rw [List.append_nil] at this
  rw [this, B2.request]

/-! ## Claim C8 -/

/-- C8: with no user-configured part size, the B2.partSize getter
returns recommendedPartSize, but the streaming write path's
FileUploadStream.partSize getter (the capacity of each PendingPart)
returns absoluteMinimumPartSize instead, because its first return
statement shadows the recommendedPartSize return: at an authorization
with absoluteMinimumPartSize 5 and recommendedPartSize 100, the
streaming part capacity is 5, not 100. -/
theorem c8_stream_part_size_not_recommended :
    B2.partSize none ⟨5, 100⟩ = 100 ∧
    FileUploadStream.partSize ⟨5, 100⟩ = 5 ∧
    FileUploadStream.partSize ⟨5, 100⟩ ≠ B2.partSize none ⟨5, 100⟩ ∧
    FileUploadStream.partSize ⟨5, 100⟩ ≠ B2.partSize (some 50) ⟨5, 100⟩ := by
  refine ⟨rfl, rfl, by decide, by decide⟩

/-! ## Part upload: uploadPart (src/unnamed/part_000, lines 24-72)

Part uploads have their own retry loop, distinct from B2.request.  The
trace lists the HTTP status of each attempted POST.  Leases (upload
url / token pairs minted by b2_get_upload_part_url) are modelled by
natural-number identities: the getUploadUrl callback is modelled as a
mint counter, each call returning the next fresh identity. -/

/-- One POST attempt recorded by the part-upload model: which lease the
Authorization header was taken from and the response status. -/
structure PartAttempt where
  lease : Nat
  status : Nat
  deriving DecidableEq, Repr

/-- Result of a run of uploadPart over a finite trace. -/
inductive PartResult where
  /-- HTTP 200: result returned, naming the lease it was uploaded with
  (the url field of the PartUploadResult). -/
  | success (usedLease : Nat)
  /-- a BackblazeServerError was thrown. -/
  | failure (e : B2Error)
  /-- the finite trace ran out while the loop was still retrying. -/
  | outOfTrace
  deriving DecidableEq, Repr

/-- Model of the recursive body of uploadPart (src/unnamed/part_000
lines 24-72) once the lease is resolved; l is the current lease, ctr
the next fresh lease identity from getUploadUrl.  Returns the result,
the list of POST attempts made, and the list of setTimeout delays
scheduled (in milliseconds, only the 408 path sleeps).  In the source
the case for status 401 falls through into the 503 case: both check
retryN against maxRetries (throwing UnauthorizedRequest resp.
ServiceUnavailable when retryN exceeds it) and otherwise retry with a
fresh lease from getUploadUrl; the 408 case sleeps for
backoffRate * 2 ^ retryN and retries with the same lease. -/
def uploadPartGo (maxRetries backoffRate retryN l ctr : Nat) :
    List Nat → PartResult × List PartAttempt × List Nat
  | [] => (.outOfTrace, [], [])
  | status :: rest =>
    if status = 200 then (.success l, [⟨l, 200⟩], [])
    else if status = 401 ∨ status = 503 then
      if retryN > maxRetries then
        (.failure (if status = 401 then .unauthorizedRequest else .serviceUnavailable),
          [⟨l, status⟩], [])
      else
        let r := uploadPartGo maxRetries backoffRate (retryN + 1) ctr (ctr + 1) rest
        (r.1, ⟨l, status⟩ :: r.2.1, r.2.2)
    else if status = 408 then
      if retryN > maxRetries then (.failure .requestTimeout, [⟨l, 408⟩], [])
      else
        let r := uploadPartGo maxRetries backoffRate (retryN + 1) l ctr rest
        (r.1, ⟨l, 408⟩ :: r.2.1, backoffRate * 2 ^ retryN :: r.2.2)
    else (.failure .unknownServerError, [⟨l, status⟩], [])

/-- Model of the exported uploadPart entry point: if the caller passed
no upload url (typeof undefined), one is minted from getUploadUrl
before the first POST; retryN starts at 0. -/
def uploadPart (maxRetries backoffRate : Nat) (lease : Option Nat) (ctr : Nat)
    (trace : List Nat) : PartResult × List PartAttempt × List Nat :=
  match lease with
  | some l => uploadPartGo maxRetries backoffRate 0 l ctr trace
  | none => uploadPartGo maxRetries backoffRate 0 ctr (ctr + 1) trace

/-- Auxiliary for C6: a run of consecutive 401 responses long enough to
drive retryN beyond maxRetries ends in UnauthorizedRequest. -/
theorem uploadPartGo_replicate_401_fails (j : Nat) :
    ∀ maxRetries backoffRate retryN l ctr : Nat,
      retryN + j = maxRetries + 2 → 1 ≤ j →
      (uploadPartGo maxRetries backoffRate retryN l ctr
        (List.replicate j 401)).1 = .failure .unauthorizedRequest := by
  induction j with
  | zero => intro _ _ _ _ _ _ h; omega
  | succ j ih =>
    intro maxRetries backoffRate retryN l ctr hsum _
    rw [List.replicate_succ, uploadPartGo]
    by_cases hj : j = 0
    · subst hj
      have hgt : retryN > maxRetries := by omega
      simp [hgt]
    · have hle : ¬ retryN > maxRetries := by omega
      simp only [hle, if_false, if_neg (by decide : ¬ (401 : Nat) = 200),
        if_pos (by decide : (401 : Nat) = 401 ∨ (401 : Nat) = 503)]
      exact ih maxRetries backoffRate (retryN + 1) ctr (ctr + 1) (by omega) (by omega)

/-- Auxiliary for C6: a run of 401 responses that stays within
retryN at most maxRetries, followed by a 200, ends in success. -/
theorem uploadPartGo_replicate_401_succeeds (j : Nat) :
    ∀ maxRetries backoffRate retryN l ctr : Nat,
      retryN + j = maxRetries + 1 →
      ∃ l2, (uploadPartGo maxRetries backoffRate retryN l ctr
        (List.replicate j 401 ++ [200])).1 = .success l2 := by
  induction j with
  | zero =>
    intro maxRetries backoffRate retryN l ctr _
    exact ⟨l, by rw [List.replicate_zero, List.nil_append, uploadPartGo]; simp⟩
  | succ j ih =>
    intro maxRetries backoffRate retryN l ctr hsum
    rw [List.replicate_succ, List.cons_append, uploadPartGo]
    have hle : ¬ retryN > maxRetries := by omega
    simp only [hle, if_false, if_neg (by decide : ¬ (401 : Nat) = 200),
      if_pos (by decide : (401 : Nat) = 401 ∨ (401 : Nat) = 503)]
    exact ih maxRetries backoffRate (retryN + 1) ctr (ctr + 1) (by omega)

/-- C6 counterexample: with maxRetries 0 the part upload still retries a
401 once (minting lease 1) and succeeds on the second attempt, so the
failure does not occur when the budget of 0 retries is exhausted: the
check is retryN greater than maxRetries, allowing maxRetries + 1
retries. -/
theorem c6_part_upload_retry_budget_off_by_one :
    uploadPart 0 150 (some 0) 1 [401, 200] =
      (.success 1, [⟨0, 401⟩, ⟨1, 200⟩], []) := by decide

/-- C6 amended: for every part upload, a 401 or 503 response with
retryN at most maxRetries retries with a fresh lease minted from
getUploadUrl, and fails with UnauthorizedRequest resp.
ServiceUnavailable once retryN exceeds maxRetries, so up to
maxRetries + 1 lease-refresh retries are performed (one more than the
budget); a 408 retries against the same lease after a scheduled delay
of backoffRate * 2 ^ retryN (no jitter), also up to maxRetries + 1
times; any other non-200 status fails immediately with
UnknownServerError. -/
theorem c6_part_upload_retry_policy :
    (∀ maxRetries backoffRate retryN l ctr status rest,
      status ≠ 200 → status ≠ 401 → status ≠ 503 → status ≠ 408 →
      uploadPartGo maxRetries backoffRate retryN l ctr (status :: rest) =
        (.failure .unknownServerError, [⟨l, status⟩], [])) ∧
    (∀ maxRetries backoffRate retryN l ctr rest,
      retryN ≤ maxRetries →
      uploadPartGo maxRetries backoffRate retryN l ctr (401 :: rest) =
        (let r := uploadPartGo maxRetries backoffRate (retryN + 1) ctr (ctr + 1) rest
         (r.1, ⟨l, 401⟩ :: r.2.1, r.2.2)) ∧
      uploadPartGo maxRetries backoffRate retryN l ctr (503 :: rest) =
        (let r := uploadPartGo maxRetries backoffRate (retryN + 1) ctr (ctr + 1) rest
         (r.1, ⟨l, 503⟩ :: r.2.1, r.2.2)) ∧
      uploadPartGo maxRetries backoffRate retryN l ctr (408 :: rest) =
        (let r := uploadPartGo maxRetries backoffRate (retryN + 1) l ctr rest
         (r.1, ⟨l, 408⟩ :: r.2.1, backoffRate * 2 ^ retryN :: r.2.2))) ∧
    (∀ maxRetries backoffRate retryN l ctr status rest,
      retryN > maxRetries → (status = 401 ∨ status = 503 ∨ status = 408) →
      uploadPartGo maxRetries backoffRate retryN l ctr (status :: rest) =
        (.failure (if status = 401 then .unauthorizedRequest
                   else if status = 503 then .serviceUnavailable
                   else .requestTimeout), [⟨l, status⟩], [])) ∧
    (∀ maxRetries backoffRate l ctr,
      (uploadPart maxRetries backoffRate (some l) ctr
        (List.replicate (maxRetries + 2) 401)).1 = .failure .unauthorizedRequest ∧
      ∃ l2, (uploadPart maxRetries backoffRate (some l) ctr
        (List.replicate (maxRetries + 1) 401 ++ [200])).1 = .success l2) := by
  refine ⟨?_, ?_, ?_, ?_⟩
  · intro maxRetries backoffRate retryN l ctr status rest h200 h401 h503 h408
    rw [uploadPartGo]
    simp [h200, h401, h503, h408]
  · intro maxRetries backoffRate retryN l ctr rest hle
    have hgt : ¬ retryN > maxRetries := by omega
    refine ⟨?_, ?_, ?_⟩ <;> rw [uploadPartGo] <;> simp [hgt]
  · intro maxRetries backoffRate retryN l ctr status rest hgt hstat
    rw [uploadPartGo]
    rcases hstat with h | h | h <;> subst h <;> simp [hgt]
  · intro maxRetries backoffRate l ctr
    constructor
    · exact uploadPartGo_replicate_401_fails (maxRetries + 2)
        maxRetries backoffRate 0 l ctr (by omega) (by omega)
    · exact uploadPartGo_replicate_401_succeeds (maxRetries + 1)
        maxRetries backoffRate 0 l ctr (by omega)

/-- C6 witness: the amended retry policy evaluated at concrete inputs:
a 404 fails immediately with UnknownServerError, a first 401 with
budget 1 retries on the fresh lease 7, and a 401 at retryN 2 with
maxRetries 1 fails with UnauthorizedRequest. -/
theorem c6_part_upload_retry_policy_witness :
    uploadPartGo 1 150 0 3 7 [404] =
      (.failure .unknownServerError, [⟨3, 404⟩], []) ∧
    uploadPartGo 1 150 0 3 7 [401, 200] =
      (.success 7, [⟨3, 401⟩, ⟨7, 200⟩], []) ∧
    uploadPartGo 1 150 2 3 7 [401] =
      (.failure .unauthorizedRequest, [⟨3, 401⟩], []) := by
  refine ⟨?_, ?_, ?_⟩
  · exact c6_part_upload_retry_policy.1 1 150 0 3 7 404 []
      (by decide) (by decide) (by decide) (by decide)
  · have h := (c6_part_upload_retry_policy.2.1 1 150 0 3 7 [200] (by decide)).1
    rw [h]; decide
  · have h := c6_part_upload_retry_policy.2.2.1 1 150 2 3 7 401 []
      (by decide) (Or.inl rfl)
    rw [h]; decide

/-! ## Single-part upload (src/src/bucket.ts lines 478-675)

The SinglePartUpload class owns one lease (uploadUrl and token from
b2_get_upload_url).  Its private _upload builds the request (including
deferred-hash mode) and classifies the response; the public upload
wraps it with the inUse flag; Bucket.uploadSinglePart leases from the
per-bucket free set of SinglePartUpload objects and returns or drops
the lease in its finally block. -/

/-- Outcome of one fetch attempt of the single-part POST: a transport
failure (the fetch promise rejects and, _upload having no catch, the
error propagates as thrown) or an HTTP response with status and body
code. -/
inductive SPStatus where
  | transport
  | http (status : Nat) (code : String)
  deriving DecidableEq, Repr

/-- Result of a run of SinglePartUpload._upload over a finite trace. -/
inductive SPOutcome where
  /-- HTTP 200: the FileData is returned. -/
  | ok
  /-- the method returned false: HTTP 401 with bad_auth_token or
  expired_auth_token, meaning the lease is no longer valid. -/
  | invalid
  /-- an error was thrown. -/
  | err (e : B2Error)
  /-- the finite trace ran out while the retry loop was still going. -/
  | outOfTrace
  deriving DecidableEq, Repr

/-- Model of the response classification and retry loop of
SinglePartUpload._upload (src/src/bucket.ts lines 569-619), driven by a
trace of fetch outcomes; returns the outcome and the unconsumed trace.
In the source the case for status 408 falls through into the 429 case:
both guard on retries being at least maxRetries (throwing
RequestTimeout resp. TooManyRequests) and otherwise sleep with
equal-jitter backoff and recurse with retries + 1; a 503 hits neither
case label and lands in the default, throwing UnknownServerError. -/
def SinglePartUpload.uploadOutcome (maxRetries : Nat) (retries : Nat) :
    List SPStatus → SPOutcome × List SPStatus
  | [] => (.outOfTrace, [])
  | o :: rest =>
    match o with
    | .transport => (.err .transportFailure, rest)
    | .http status code =>
      if status = 200 then (.ok, rest)
      else if status = 400 then (.err .badRequest, rest)
      else if status = 401 then
        if code = "bad_auth_token" ∨ code = "expired_auth_token" then
          (.invalid, rest)
        else (.err .unauthorizedRequest, rest)
      else if status = 403 then (.err .usageCapExceeded, rest)
      else if status = 408 then
        if retries ≥ maxRetries then (.err .requestTimeout, rest)
        else SinglePartUpload.uploadOutcome maxRetries (retries + 1) rest
      else if status = 429 then
        if retries ≥ maxRetries then (.err .tooManyRequests, rest)
        else SinglePartUpload.uploadOutcome maxRetries (retries + 1) rest
      else if status = 405 then (.err .internalLibrary, rest)
      else (.err .unknownServerError, rest)

/-- Model of the public SinglePartUpload.upload (src/src/bucket.ts lines
639-674): it sets _inUse, runs _upload with retries 0, and in its
finally clears _inUse unless the result is the lease-invalid signal
false.  When _upload throws, the local result variable is still
undefined, so the finally clears _inUse even though the lease just
failed.  Returns the outcome, the unconsumed trace, and the inUse flag
after the call. -/
def SinglePartUpload.uploadCall (maxRetries : Nat) (trace : List SPStatus) :
    SPOutcome × List SPStatus × Bool :=
  let r := SinglePartUpload.uploadOutcome maxRetries 0 trace
  (r.1, r.2, r.1 = .invalid ∨ r.1 = .outOfTrace)

/-- Model of Bucket.getSinglePartUpload (src/src/bucket.ts lines
225-231): pop the last SinglePartUpload from the free set, or mint a
new one via requestNew.  Leases are natural-number identities; ctr is
the next fresh identity.  Returns the lease, the remaining free set,
and the updated mint counter. -/
def Bucket.popLease (pool : List Nat) (ctr : Nat) : Nat × List Nat × Nat :=
  match pool.getLast? with
  | some l => (l, pool.dropLast, ctr)
  | none => (ctr, [], ctr + 1)

/-- Model of Bucket.uploadSinglePart (src/src/bucket.ts lines 242-258):
lease a SinglePartUpload, run upload on it; if the result is the
lease-invalid signal false, recurse (acquiring another lease); the
finally block pushes the lease back onto the free set whenever its
inUse flag is clear, which holds for a clean 200 and for every thrown
error alike.  The fuel bounds the lease-invalid recursion (the source
recurses without bound); returns the outcome and the final free set. -/
def Bucket.uploadSinglePart (maxRetries : Nat) :
    Nat → List Nat → Nat → List SPStatus → SPOutcome × List Nat
  | 0, pool, _, _ => (.outOfTrace, pool)
  | fuel + 1, pool, ctr, trace =>
    let p := Bucket.popLease pool ctr
    let r := SinglePartUpload.uploadCall maxRetries trace
    match r.1 with
    | .invalid => Bucket.uploadSinglePart maxRetries fuel p.2.1 p.2.2 r.2.1
    | .outOfTrace => (.outOfTrace, p.2.1)
    | .ok => (.ok, p.2.1 ++ [p.1])
    | .err e => (.err e, p.2.1 ++ [p.1])

/-- Membership of the last element produced by getLast?. -/
theorem mem_of_getLast?_eq_some {α : Type} {l : List α} {a : α}
    (h : l.getLast? = some a) : a ∈ l := by
  obtain ⟨hne, heq⟩ :=
    List.mem_getLast?_eq_getLast (show a ∈ l.getLast? from h)
  rw [heq]
  exact List.getLast_mem hne

/-- Auxiliary for C5: every lease in the free set left by
Bucket.uploadSinglePart either was in the initial free set or is a
fresh identity at least ctr. -/
theorem Bucket.uploadSinglePart_pool_mem (maxRetries : Nat) :
    ∀ (fuel : Nat) (pool : List Nat) (ctr : Nat) (trace : List SPStatus)
      (x : Nat), x ∈ (Bucket.uploadSinglePart maxRetries fuel pool ctr trace).2 →
      x ∈ pool ∨ ctr ≤ x := by
  intro fuel
  induction fuel with
  | zero => intro pool ctr trace x hx; exact Or.inl hx
  | succ fuel ih =>
    intro pool ctr trace x hx
    rw [Bucket.uploadSinglePart] at hx
    rcases hr : (SinglePartUpload.uploadCall maxRetries trace).1 with _ | _ | e | _ <;>
      rcases hpool : pool.getLast? with _ | l <;>
      simp only [Bucket.popLease, hpool, hr] at hx
    · simp only [List.nil_append, List.mem_singleton] at hx
      exact Or.inr (by omega)
    · rcases List.mem_append.mp hx with h | h
      · exact Or.inl (List.mem_of_mem_dropLast h)
      · rw [List.mem_singleton] at h
        exact Or.inl (h ▸ mem_of_getLast?_eq_some hpool)
    · rcases ih [] (ctr + 1) _ x hx with h | h
      · exact absurd h (List.not_mem_nil x)
      · exact Or.inr (by omega)
    · rcases ih pool.dropLast ctr _ x hx with h | h
      · exact Or.inl (List.mem_of_mem_dropLast h)
      · exact Or.inr h
    · simp only [List.nil_append, List.mem_singleton] at hx
      exact Or.inr (by omega)
    · rcases List.mem_append.mp hx with h | h
      · exact Or.inl (List.mem_of_mem_dropLast h)
      · rw [List.mem_singleton] at h
        exact Or.inl (h ▸ mem_of_getLast?_eq_some hpool)
    · exact absurd hx (List.not_mem_nil x)
    · exact Or.inl (List.mem_of_mem_dropLast hx)

/-- C5 counterexample: a single-part upload attempt whose only response
is a 503 is classified UnknownServerError and thrown, and the lease
(freshly minted identity 0) is nonetheless returned to the bucket free
set: the final free set is exactly the failed lease. -/
theorem c5_failed_lease_returned_to_pool :
    Bucket.uploadSinglePart 5 1 [] 0 [.http 503 "service_unavailable"] =
      (.err .unknownServerError, [0]) ∧
    (0 : Nat) ∈ (Bucket.uploadSinglePart 5 1 [] 0
      [.http 503 "service_unavailable"]).2 := by
  constructor
  · decide
  · decide

/-- C5 amended: the lease is dropped exactly when the upload attempt
itself reports lease-invalid (HTTP 401 with bad_auth_token or
expired_auth_token): on any thrown failure (a 503 classified
UnknownServerError, a transport failure, budget exhaustion, or any
other thrown error) the finally blocks clear the inUse flag and return
the lease to the free set, and on a clean 200 the lease is likewise
returned; only the lease-invalid signal leaves the lease out of the
free set. -/
theorem c5_lease_return_discipline (maxRetries fuel ctr : Nat)
    (pool : List Nat) (trace : List SPStatus) :
    (∀ e, (SinglePartUpload.uploadOutcome maxRetries 0 trace).1 = .err e →
      Bucket.uploadSinglePart maxRetries (fuel + 1) pool ctr trace =
        (.err e, (Bucket.popLease pool ctr).2.1 ++ [(Bucket.popLease pool ctr).1])) ∧
    ((SinglePartUpload.uploadOutcome maxRetries 0 trace).1 = .ok →
      Bucket.uploadSinglePart maxRetries (fuel + 1) pool ctr trace =
        (.ok, (Bucket.popLease pool ctr).2.1 ++ [(Bucket.popLease pool ctr).1])) ∧
    ((SinglePartUpload.uploadOutcome maxRetries 0 trace).1 = .invalid →
      pool = [] →
      ctr ∉ (Bucket.uploadSinglePart maxRetries (fuel + 1) pool ctr trace).2) := by
  refine ⟨fun e he => ?_, fun hok => ?_, fun hinv hpool => ?_⟩
  · rw [Bucket.uploadSinglePart]
    simp only [SinglePartUpload.uploadCall, he]
  · rw [Bucket.uploadSinglePart]
    simp only [SinglePartUpload.uploadCall, hok]
  · subst hpool
    rw [Bucket.uploadSinglePart]
    simp only [SinglePartUpload.uploadCall, hinv, Bucket.popLease,
      List.getLast?_nil]
    intro hmem
    rcases Bucket.uploadSinglePart_pool_mem maxRetries fuel [] (ctr + 1) _ ctr hmem with
      h | h
    · exact List.not_mem_nil ctr h
    · omega

/-- C5 witness: the amended discipline evaluated concretely: a thrown
UnknownServerError (503) returns lease 4 to the free set behind the
remaining lease 3; a clean 200 also returns it; a lease-invalid 401
with a fresh mint (lease 9) leaves 9 permanently out of the free set. -/
theorem c5_lease_return_discipline_witness :
    Bucket.uploadSinglePart 5 1 [3, 4] 9 [.http 503 "x"] =
      (.err .unknownServerError, [3, 4]) ∧
    Bucket.uploadSinglePart 5 1 [3, 4] 9 [.http 200 ""] = (.ok, [3, 4]) ∧
    (9 : Nat) ∉ (Bucket.uploadSinglePart 5 2 [] 9
      [.http 401 "expired_auth_token", .http 200 ""]).2 := by
  refine ⟨?_, ?_, ?_⟩
  · have h := (c5_lease_return_discipline 5 0 9 [3, 4] [.http 503 "x"]).1
      .unknownServerError (by decide)
    rw [h]; decide
  · have h := (c5_lease_return_discipline 5 0 9 [3, 4] [.http 200 ""]).2.1 (by decide)
    rw [h]; decide
  · exact (c5_lease_return_discipline 5 1 9 []
      [.http 401 "expired_auth_token", .http 200 ""]).2.2 (by decide) rfl

/-! ## Deferred-hash request building (src/src/bucket.ts lines 522-573
and src/unnamed/part_008)

SinglePartUpload._upload builds the POST before the fetch: when the
caller supplied no sha1, the data is piped through an AppendHashStream,
which forwards every chunk while updating a SHA-1 and, on end, pushes
the 40-character lowercase hex digest as utf-8 trailer bytes; the
header is set to hex_digits_at_end and contentLength is increased by
40. -/

/-- The observable pieces of the single-part POST request. -/
structure SinglePartRequest where
  /-- the X-Bz-Content-Sha1 header. -/
  sha1Header : String
  /-- the Content-Length header value. -/
  contentLengthHeader : Nat
  /-- the transmitted body bytes. -/
  body : List Nat
  deriving DecidableEq, Repr

/-- Model of the request construction in SinglePartUpload._upload
(src/src/bucket.ts lines 537-573) for a Buffer source, parameterized by
the external SHA-1 primitive d (bytes to 20-byte digest).  If sha1 is
undefined, the body is piped through an AppendHashStream
(src/unnamed/part_008): the stream forwards the data and appends the
lowercase hex digest of exactly the forwarded bytes as utf-8 bytes,
while the header claims hex_digits_at_end and Content-Length grows by
40. -/
def SinglePartUpload.buildRequest (d : List Nat → List Nat)
    (sha1 : Option String) (contentLength : Nat) (data : List Nat) :
    SinglePartRequest :=
  match sha1 with
  | some s =>
    { sha1Header := s, contentLengthHeader := contentLength, body := data }
  | none =>
    { sha1Header := "hex_digits_at_end"
      contentLengthHeader := contentLength + 40
      body := data ++ (hexOfBytes (d data)).map Char.toNat }

/-- The sixteen characters Node uses for lowercase hex encoding. -/
def lowerHexChars : List Char := "0123456789abcdef".data

/-- Every hex digit character is a lowercase hex character. -/
theorem hexDigitChar_mem_lowerHexChars (n : Nat) :
    hexDigitChar n ∈ lowerHexChars := by
  rcases n with _|_|_|_|_|_|_|_|_|_|_|_|_|_|_|n
  case _ => decide
  case _ => decide
  case _ => decide
  case _ => decide
  case _ => decide
  case _ => decide
  case _ => decide
  case _ => decide
  case _ => decide
  case _ => decide
  case _ => decide
  case _ => decide
  case _ => decide
  case _ => decide
  case _ => decide
  · unfold hexDigitChar
    repeat rw [if_neg (by omega)]
    decide

/-- The hex encoding of a byte list has two characters per byte. -/
theorem hexOfBytes_length (bs : List Nat) :
    (hexOfBytes bs).length = 2 * bs.length := by
  induction bs with
  | nil => rfl
  | cons b bs ih =>
    simp only [hexOfBytes, List.map_cons, List.flatten_cons] at ih ⊢
    simp only [List.length_append, ih, hexByteChars, List.length_cons,
      List.length_nil]
    ring

/-- Every character of a hex encoding is a lowercase hex character. -/
theorem hexOfBytes_mem_lowerHexChars (bs : List Nat) :
    ∀ c ∈ hexOfBytes bs, c ∈ lowerHexChars := by
  induction bs with
  | nil => intro c hc; exact absurd hc (List.not_mem_nil c)
  | cons b bs ih =>
    intro c hc
    simp only [hexOfBytes, List.map_cons, List.flatten_cons,
      List.mem_append] at hc
    rcases hc with hc | hc
    · simp only [hexByteChars, List.mem_cons, List.mem_singleton] at hc
      rcases hc with rfl | rfl | hc
      · exact hexDigitChar_mem_lowerHexChars _
      · exact hexDigitChar_mem_lowerHexChars _
      · exact absurd hc (List.not_mem_nil c)
    · exact ih c hc

/-- C7: for every single-part upload with no caller-supplied SHA-1, the
request carries the header X-Bz-Content-Sha1 hex_digits_at_end, its
Content-Length is the declared content length plus 40, and the body is
the original bytes followed by a 40-character lowercase hex trailer
that encodes the SHA-1 digest of just the original bytes (the digest is
taken of the data alone, before the trailer is appended). -/
theorem c7_deferred_hash_request (d : List Nat → List Nat)
    (hd : ∀ bs, (d bs).length = 20) (contentLength : Nat) (data : List Nat) :
    (SinglePartUpload.buildRequest d none contentLength data).sha1Header =
      "hex_digits_at_end" ∧
    (SinglePartUpload.buildRequest d none contentLength data).contentLengthHeader =
      contentLength + 40 ∧
    (SinglePartUpload.buildRequest d none contentLength data).body =
      data ++ (hexOfBytes (d data)).map Char.toNat ∧
    ((hexOfBytes (d data)).map Char.toNat).length = 40 ∧
    (∀ c ∈ hexOfBytes (d data), c ∈ lowerHexChars) ∧
    (contentLength = data.length →
      (SinglePartUpload.buildRequest d none contentLength data).body.length =
        contentLength + 40) := by
  refine ⟨rfl, rfl, rfl, ?_, hexOfBytes_mem_lowerHexChars _, fun hcl => ?_⟩
  · rw [List.length_map, hexOfBytes_length, hd]
  · simp only [SinglePartUpload.buildRequest, List.length_append,
      List.length_map, hexOfBytes_length, hd, hcl]

/-- C7 witness: the deferred-hash request built over the constant
digest for the ten-byte body of scenario S6 has Content-Length 50,
header hex_digits_at_end, and a 40-character trailer. -/
theorem c7_deferred_hash_request_witness :
    (∀ bs, (constDigest bs).length = 20) ∧
    (SinglePartUpload.buildRequest constDigest none 10
      (List.replicate 10 7)).sha1Header = "hex_digits_at_end" ∧
    (SinglePartUpload.buildRequest constDigest none 10
      (List.replicate 10 7)).contentLengthHeader = 50 ∧
    (SinglePartUpload.buildRequest constDigest none 10
      (List.replicate 10 7)).body.length = 50 :=
  ⟨fun _ => rfl,
    (c7_deferred_hash_request constDigest (fun _ => rfl) 10
      (List.replicate 10 7)).1,
    (c7_deferred_hash_request constDigest (fun _ => rfl) 10
      (List.replicate 10 7)).2.1,
    (c7_deferred_hash_request constDigest (fun _ => rfl) 10
      (List.replicate 10 7)).2.2.2.2.2 (by decide)⟩

/-! ## File listing: Bucket.listFileData (src/src/bucket.ts lines
126-165)

The b2_list_file_names server is modelled as a function from the
startFileName field of the request body (None for undefined) to a
batch.  The async generator listFileData destructures batchSize and
startFileName OUT of its options argument and then passes that
remainder object to _getFileDataBatch, so every request is issued with
startFileName undefined; the local loop variable is reassigned from
nextFileName but never read. -/

/-- One b2_list_file_names response batch: the files field and the
nextFileName field (None models JSON null). -/
structure ListBatch where
  files : List String
  nextFileName : Option String
  deriving DecidableEq, Repr

/-- Model of the loop of Bucket.listFileData (src/src/bucket.ts lines
151-165), driven by a server function and bounded by fuel (the source
loop is while true).  Each iteration calls _getFileDataBatch with the
options remainder, in which startFileName is absent, so the server is
consulted at None every time; the startFileName parameter mirrors the
dead loop variable.  Returns the yielded files and whether the loop
broke out via nextFileName null within the given fuel. -/
def Bucket.listFileData (server : Option String → ListBatch) :
    Nat → Option String → List String × Bool
  | 0, _ => ([], false)
  | fuel + 1, _ =>
    let b := server none
    match b.nextFileName with
    | none => (b.files, true)
    | some next =>
      let r := Bucket.listFileData server fuel (some next)
      (b.files ++ r.1, r.2)

/-- A two-batch bucket: listing from the beginning yields file a and
points at b; listing from b yields file b and terminates. -/
def twoBatchServer : Option String → ListBatch
  | none => ⟨["a"], some "b"⟩
  | some _ => ⟨["b"], none⟩

/-- C10: on a bucket whose listing spans two batches, the enumeration
never terminates and re-yields the first batch forever: because
startFileName is destructured out of the forwarded options, every
request asks for the listing from the beginning, so no fuel bound sees
nextFileName null and the file a is yielded once per iteration instead
of exactly once. -/
theorem c10_listing_never_advances (fuel : Nat) (start : Option String) :
    Bucket.listFileData twoBatchServer fuel start =
      (List.replicate fuel "a", false) := by
  induction fuel generalizing start with
  | zero => rfl
  | succ fuel ih =>
    rw [Bucket.listFileData]
    simp only [twoBatchServer, ih, List.replicate_succ, List.cons_append,
      List.nil_append]

/-! ## Streaming upload engine (src/unnamed/part_002)

PendingPart is a writable that accumulates chunks, counts bytes, and
incrementally hashes; its final hook stores the hex digest.  Node's
incremental hash over the written chunks equals the hash of their
concatenation, so the model keeps the concatenated bytes and an
optional digest that is only set when the part is ended.
FileUploadStream.__process fills the pending part up to the part size,
sealing and uploading a full part whenever a chunk overflows the
remaining space; part numbers are the number of upload calls so far
plus one.  The upload-url pool, the start-large-file kickoff and the
network success path of each part upload are elided: the model records
the sequence of uploadPart calls (which the source performs
sequentially, awaiting each before continuing). -/

/-- Model of PendingPart (src/unnamed/part_002 lines 9-34): the
concatenation of the written chunks, and the hex digest that the final
hook assigns when the writable is ended (undefined before). -/
structure PendingPart where
  data : List Nat
  digest : Option (List Char)
  deriving DecidableEq, Repr

/-- A fresh PendingPart: no data, digest not yet assigned. -/
def PendingPart.empty : PendingPart := ⟨[], none⟩

/-- PendingPart write hook: append the chunk (the hash and byte count
are derived from data). -/
def PendingPart.write (pp : PendingPart) (chunk : List Nat) : PendingPart :=
  ⟨pp.data ++ chunk, pp.digest⟩

/-- PendingPart final hook (run by end): store the hex digest of the
hashed bytes, parameterized by the external SHA-1 primitive d. -/
def PendingPart.finalize (d : List Nat → List Nat) (pp : PendingPart) :
    PendingPart :=
  ⟨pp.data, some (hexOfBytes (d pp.data))⟩

/-- PendingPart byte counter. -/
def PendingPart.bytes (pp : PendingPart) : Nat := pp.data.length

/-- The engine state of FileUploadStream: the current pending part and
the record of uploadPart calls made so far, each with the part number
assigned to it (the source assigns uploadDigestPromises.length + 1 at
call time and awaits each upload before processing further input). -/
structure EngineState where
  pending : PendingPart
  uploads : List (Nat × List Nat)
  deriving DecidableEq, Repr

/-- Model of FileUploadStream.uploadPart (src/unnamed/part_002 lines
107-137) on the success path: record the part upload with part number
uploadDigestPromises.length + 1.  The lease pop and push on uploadUrls
and the start-large-file kickoff do not affect the recorded parts and
are elided. -/
def FileUploadStream.uploadPartCall (st : EngineState) (part : PendingPart) :
    EngineState :=
  { st with uploads := st.uploads ++ [(st.uploads.length + 1, part.data)] }

/-- Model of FileUploadStream.__process (src/unnamed/part_002 lines
62-93): with spaceInPart the part size minus the pending byte count, a
chunk larger than the space seals the pending part (writing the first
spaceInPart bytes into it, ending it, uploading it) and recurses on
the rest of the chunk with a fresh pending part; otherwise the chunk
is written into the pending part. -/
def FileUploadStream.process (d : List Nat → List Nat) (p : Nat) (hp : 0 < p)
    (st : EngineState) (chunk : List Nat) : EngineState :=
  if h : p - st.pending.data.length < chunk.length then
    FileUploadStream.process d p hp
      (FileUploadStream.uploadPartCall { st with pending := PendingPart.empty }
        ((st.pending.write (chunk.take (p - st.pending.data.length))).finalize d))
      (chunk.drop (p - st.pending.data.length))
  else
    { st with pending := st.pending.write chunk }
termination_by 2 * chunk.length + st.pending.data.length
decreasing_by
  simp only [List.length_drop, FileUploadStream.uploadPartCall,
    PendingPart.empty, List.length_nil]
  omega

/-- Model of the write side of the stream: each incoming chunk goes
through __process in order (src/unnamed/part_002 lines 87-93), starting
from a fresh pending part and an empty upload record. -/
def FileUploadStream.writeAll (d : List Nat → List Nat) (p : Nat) (hp : 0 < p)
    (chunks : List (List Nat)) : EngineState :=
  chunks.foldl (FileUploadStream.process d p hp) ⟨PendingPart.empty, []⟩

/-- The result of ending the stream. -/
inductive StreamResult where
  /-- the single-part fallback was taken, issuing this request. -/
  | single (req : SinglePartRequest)
  /-- a multi-part upload was finished: the parts uploaded (part number
  and bytes, in upload order) and the partSha1Array submitted to
  b2_finish_large_file. -/
  | multi (parts : List (Nat × List Nat)) (partSha1Array : List String)
  deriving DecidableEq, Repr

/-- Model of FileUploadStream._final and _finishUpload (src/unnamed/
part_002 lines 95-100 and 152-174).  With no upload calls recorded the
engine reverts to _uploadAsSinglePart, forwarding the pending bytes,
their count as contentLength, and the pendingPart digest field as the
sha1 option to File.uploadSinglePart, Bucket.uploadSinglePart and
SinglePartUpload._upload (the option travels unchanged, see
src/src/api-operations/authorize-account.ts lines 448-457 and
src/src/bucket.ts lines 242-258 and 522-573); since on this path the
pending part was never ended, that digest field is still undefined.
Otherwise _finishMultipart ends the pending part, uploads it as the
last part, and submits the partSha1Array collected from the upload
responses, which for a part uploaded with digest h report contentSha1
h, in promise-array order. -/
def FileUploadStream.finish (d : List Nat → List Nat) (p : Nat) (hp : 0 < p)
    (chunks : List (List Nat)) : StreamResult :=
  let st := FileUploadStream.writeAll d p hp chunks
  if st.uploads.length = 0 then
    .single (SinglePartUpload.buildRequest d (st.pending.digest.map String.mk)
      st.pending.bytes st.pending.data)
  else
    let st1 := FileUploadStream.uploadPartCall st (st.pending.finalize d)
    .multi st1.uploads (st1.uploads.map fun u => hexStringOfBytes (d u.2))

/-! ## Greedy part decomposition

The engine seals a part exactly when the cumulative input strictly
exceeds a multiple of the part size, so the parts are the greedy
partition of the flat input into blocks of the part size, with a
nonempty remainder of at most the part size kept pending. -/

/-- The greedy partition of a byte list into blocks of exactly p bytes,
keeping the final at-most-p bytes (kept whole while the list does not
strictly exceed p) as the remainder. -/
def greedyParts (p : Nat) (hp : 0 < p) (l : List Nat) :
    List (List Nat) × List Nat :=
  if h : p < l.length then
    ((l.take p) :: (greedyParts p hp (l.drop p)).1, (greedyParts p hp (l.drop p)).2)
  else ([], l)
termination_by l.length
decreasing_by
  all_goals simp only [List.length_drop]
  all_goals omega

/-- Sequential part numbering starting at k. -/
def numberFrom (k : Nat) : List (List Nat) → List (Nat × List Nat)
  | [] => []
  | b :: bs => (k, b) :: numberFrom (k + 1) bs

/-- Numbering preserves length. -/
theorem numberFrom_length (k : Nat) (bs : List (List Nat)) :
    (numberFrom k bs).length = bs.length := by
  induction bs generalizing k with
  | nil => rfl
  | cons b bs ih => simp [numberFrom, ih]

/-- Numbering splits over append, continuing from the length. -/
theorem numberFrom_append (k : Nat) (xs ys : List (List Nat)) :
    numberFrom k (xs ++ ys) = numberFrom k xs ++ numberFrom (k + xs.length) ys := by
  induction xs generalizing k with
  | nil => simp [numberFrom]
  | cons x xs ih =>
    simp only [List.cons_append, numberFrom, ih, List.length_cons,
      List.append_eq]
    rw [show k + (xs.length + 1) = k + 1 + xs.length by omega]

/-- The first components of a numbering are consecutive from k. -/
theorem numberFrom_map_fst (k : Nat) (bs : List (List Nat)) :
    (numberFrom k bs).map Prod.fst = List.range' k bs.length := by
  induction bs generalizing k with
  | nil => rfl
  | cons b bs ih => simp [numberFrom, ih, List.range'_succ]

/-- The second components of a numbering are the original blocks. -/
theorem numberFrom_map_snd (k : Nat) (bs : List (List Nat)) :
    (numberFrom k bs).map Prod.snd = bs := by
  induction bs generalizing k with
  | nil => rfl
  | cons b bs ih => simp [numberFrom, ih]

/-- Greedy partition below the threshold: no blocks. -/
theorem greedyParts_of_le (p : Nat) (hp : 0 < p) (l : List Nat)
    (h : l.length ≤ p) : greedyParts p hp l = ([], l) := by
  rw [greedyParts, dif_neg (by omega)]

/-- Greedy partition above the threshold: the first block splits off. -/
theorem greedyParts_of_lt (p : Nat) (hp : 0 < p) (l : List Nat)
    (h : p < l.length) :
    greedyParts p hp l =
      ((l.take p) :: (greedyParts p hp (l.drop p)).1,
        (greedyParts p hp (l.drop p)).2) := by
  rw [greedyParts, dif_pos h]

/-- The blocks and remainder of the greedy partition reassemble the
input. -/
theorem greedyParts_flatten (p : Nat) (hp : 0 < p) :
    ∀ (n : Nat) (l : List Nat), l.length = n →
      (greedyParts p hp l).1.flatten ++ (greedyParts p hp l).2 = l := by
  intro n
  induction n using Nat.strong_induction_on with
  | _ n ih =>
    intro l hl
    by_cases h : p < l.length
    · rw [greedyParts_of_lt p hp l h]
      simp only [List.flatten_cons, List.append_assoc]
      rw [ih (l.drop p).length (by simp [List.length_drop]; omega) (l.drop p) rfl]
      exact List.take_append_drop p l
    · rw [greedyParts_of_le p hp l (by omega)]
      simp

/-- Every block of the greedy partition has exactly p bytes. -/
theorem greedyParts_block_length (p : Nat) (hp : 0 < p) :
    ∀ (n : Nat) (l : List Nat), l.length = n →
      ∀ b ∈ (greedyParts p hp l).1, b.length = p := by
  intro n
  induction n using Nat.strong_induction_on with
  | _ n ih =>
    intro l hl b hb
    by_cases h : p < l.length
    · rw [greedyParts_of_lt p hp l h] at hb
      rcases List.mem_cons.mp hb with rfl | hb
      · rw [List.length_take]; omega
      · exact ih (l.drop p).length (by simp [List.length_drop]; omega)
          (l.drop p) rfl b hb
    · rw [greedyParts_of_le p hp l (by omega)] at hb
      exact absurd hb (List.not_mem_nil b)

/-- The greedy remainder has at most p bytes. -/
theorem greedyParts_rem_le (p : Nat) (hp : 0 < p) :
    ∀ (n : Nat) (l : List Nat), l.length = n →
      (greedyParts p hp l).2.length ≤ p := by
  intro n
  induction n using Nat.strong_induction_on with
  | _ n ih =>
    intro l hl
    by_cases h : p < l.length
    · rw [greedyParts_of_lt p hp l h]
      exact ih (l.drop p).length (by simp [List.length_drop]; omega) (l.drop p) rfl
    · rw [greedyParts_of_le p hp l (by omega)]
      show l.length ≤ p
      omega

/-- The greedy remainder of a nonempty input is nonempty. -/
theorem greedyParts_rem_ne_nil (p : Nat) (hp : 0 < p) :
    ∀ (n : Nat) (l : List Nat), l.length = n → l ≠ [] →
      (greedyParts p hp l).2 ≠ [] := by
  intro n
  induction n using Nat.strong_induction_on with
  | _ n ih =>
    intro l hl hne
    by_cases h : p < l.length
    · rw [greedyParts_of_lt p hp l h]
      refine ih (l.drop p).length (by simp [List.length_drop]; omega) (l.drop p) rfl ?_
      intro hd
      have := congrArg List.length hd
      simp only [List.length_drop, List.length_nil] at this
      omega
    · rw [greedyParts_of_le p hp l (by omega)]
      exact hne

/-- The greedy partition composes over append: the blocks of the whole
are the blocks of the first piece followed by the blocks of its
remainder joined with the second piece. -/
theorem greedyParts_append (p : Nat) (hp : 0 < p) :
    ∀ (n : Nat) (l m : List Nat), l.length = n →
      greedyParts p hp (l ++ m) =
        ((greedyParts p hp l).1 ++
          (greedyParts p hp ((greedyParts p hp l).2 ++ m)).1,
         (greedyParts p hp ((greedyParts p hp l).2 ++ m)).2) := by
  intro n
  induction n using Nat.strong_induction_on with
  | _ n ih =>
    intro l m hl
    by_cases h : p < l.length
    · have hlm : p < (l ++ m).length := by
        rw [List.length_append]; omega
      rw [greedyParts_of_lt p hp l h, greedyParts_of_lt p hp (l ++ m) hlm]
      have htake : (l ++ m).take p = l.take p := List.take_append_of_le_length (by omega)
      have hdrop : (l ++ m).drop p = l.drop p ++ m := List.drop_append_of_le_length (by omega)
      rw [htake, hdrop,
        ih (l.drop p).length (by simp [List.length_drop]; omega) (l.drop p) m rfl]
      simp
    · rw [greedyParts_of_le p hp l (by omega)]
      simp

/-- Processing one chunk from a pending part with at most p bytes and
an unset digest produces exactly the greedy partition of the pending
bytes followed by the chunk: the full blocks are uploaded with
consecutive part numbers continuing the record, and the remainder
stays pending with the digest still unset. -/
theorem process_eq_greedyParts (d : List Nat → List Nat) (p : Nat) (hp : 0 < p) :
    ∀ (n : Nat) (pend : List Nat) (ups : List (Nat × List Nat))
      (chunk : List Nat), chunk.length + pend.length = n → pend.length ≤ p →
      FileUploadStream.process d p hp ⟨⟨pend, none⟩, ups⟩ chunk =
        ⟨⟨(greedyParts p hp (pend ++ chunk)).2, none⟩,
          ups ++ numberFrom (ups.length + 1) (greedyParts p hp (pend ++ chunk)).1⟩ := by
  intro n
  induction n using Nat.strong_induction_on with
  | _ n ih =>
    intro pend ups chunk hn hle
    rw [FileUploadStream.process]
    by_cases h : p - pend.length < chunk.length
    · rw [dif_pos h]
      have hlt : p < (pend ++ chunk).length := by
        rw [List.length_append]; omega
      have htake : (pend ++ chunk).take p = pend ++ chunk.take (p - pend.length) := by
        rw [List.take_append_eq_append_take, List.take_of_length_le hle]
      have hdrop : (pend ++ chunk).drop p = chunk.drop (p - pend.length) := by
        rw [List.drop_append_eq_append_drop, List.drop_eq_nil_of_le hle,
          List.nil_append]
      have hrec := ih ((chunk.drop (p - pend.length)).length)
        (by simp only [List.length_drop]; omega)
        [] (ups ++ [(ups.length + 1, pend ++ chunk.take (p - pend.length))])
        (chunk.drop (p - pend.length)) (by simp) (by simp)
      simp only [FileUploadStream.uploadPartCall, PendingPart.empty,
        PendingPart.write, PendingPart.finalize] at hrec ⊢
      rw [hrec]
      rw [greedyParts_of_lt p hp (pend ++ chunk) hlt, htake, hdrop]
      simp only [List.nil_append, numberFrom, List.length_append,
        List.length_cons, List.length_nil]
      rw [List.append_assoc]
      simp only [List.singleton_append]
    · rw [dif_neg h]
      have hsum : (pend ++ chunk).length ≤ p := by
        rw [List.length_append]; omega
      rw [greedyParts_of_le p hp (pend ++ chunk) hsum]
      simp [PendingPart.write, numberFrom]

/-- Folding the whole chunk sequence through __process from a clean
state yields the greedy partition of the flat input, with blocks
numbered consecutively after the existing record. -/
theorem foldl_process_eq (d : List Nat → List Nat) (p : Nat) (hp : 0 < p) :
    ∀ (chunks : List (List Nat)) (pend : List Nat)
      (ups : List (Nat × List Nat)), pend.length ≤ p →
      List.foldl (FileUploadStream.process d p hp) ⟨⟨pend, none⟩, ups⟩ chunks =
        ⟨⟨(greedyParts p hp (pend ++ chunks.flatten)).2, none⟩,
          ups ++ numberFrom (ups.length + 1)
            (greedyParts p hp (pend ++ chunks.flatten)).1⟩ := by
  intro chunks
  induction chunks with
  | nil =>
    intro pend ups hle
    rw [List.foldl_nil, List.flatten_nil, List.append_nil,
      greedyParts_of_le p hp pend hle]
    simp [numberFrom]
  | cons c cs ih =>
    intro pend ups hle
    rw [List.foldl_cons,
      process_eq_greedyParts d p hp (c.length + pend.length) pend ups c rfl hle,
      ih _ _ (greedyParts_rem_le p hp (pend ++ c).length (pend ++ c) rfl)]
    rw [List.flatten_cons, show pend ++ (c ++ cs.flatten) = (pend ++ c) ++ cs.flatten
      from (List.append_assoc pend c cs.flatten).symm]
    rw [greedyParts_append p hp (pend ++ c).length (pend ++ c) cs.flatten rfl]
    simp only [numberFrom_append, List.length_append, numberFrom_length,
      List.append_assoc]
    rw [show ups.length + 1 + (greedyParts p hp (pend ++ c)).1.length =
      ups.length + (greedyParts p hp (pend ++ c)).1.length + 1 by omega]

/-- The state after the write side is done: the greedy remainder is
pending with its digest unset, and the uploaded parts are the greedy
blocks numbered from 1. -/
theorem writeAll_eq (d : List Nat → List Nat) (p : Nat) (hp : 0 < p)
    (chunks : List (List Nat)) :
    FileUploadStream.writeAll d p hp chunks =
      ⟨⟨(greedyParts p hp chunks.flatten).2, none⟩,
        numberFrom 1 (greedyParts p hp chunks.flatten).1⟩ := by
  have h := foldl_process_eq d p hp chunks [] [] (by simp)
  simpa [FileUploadStream.writeAll, PendingPart.empty] using h

/-- A list of blocks that all have length p flattens to length times p
bytes. -/
theorem flatten_length_of_blocks (p : Nat) :
    ∀ L : List (List Nat), (∀ b ∈ L, b.length = p) →
      L.flatten.length = L.length * p := by
  intro L
  induction L with
  | nil => intro _; simp
  | cons b bs ih =>
    intro hall
    rw [List.flatten_cons, List.length_append, List.length_cons,
      ih (fun x hx => hall x (List.mem_cons_of_mem b hx)),
      hall b (List.mem_cons_self b bs)]
    ring

/-- C1: for every chunk sequence whose flat byte length exceeds the
part size, the streaming write path performs a multi-part upload whose
parts carry consecutive part numbers from 1 in input order; there are
ceil of length over partSize many parts; every non-final part has
exactly partSize bytes; the final part has length mod partSize bytes
(or partSize when the length is an exact multiple); the concatenation
of the part bytes is the input; and the partSha1Array submitted to
b2_finish_large_file is the per-part hex SHA-1 list in strict
part-number order. -/
theorem c1_streaming_multipart (d : List Nat → List Nat) (p : Nat) (hp : 0 < p)
    (chunks : List (List Nat)) (hlen : p < chunks.flatten.length) :
    ∃ most last,
      FileUploadStream.finish d p hp chunks =
        .multi (most ++ [last])
          ((most ++ [last]).map fun u => hexStringOfBytes (d u.2)) ∧
      (most ++ [last]).map Prod.fst = List.range' 1 (most.length + 1) ∧
      most.length + 1 = (chunks.flatten.length + p - 1) / p ∧
      (∀ u ∈ most, u.2.length = p) ∧
      last.2.length =
        (if chunks.flatten.length % p = 0 then p
         else chunks.flatten.length % p) ∧
      ((most ++ [last]).map Prod.snd).flatten = chunks.flatten := by
  have hball : ∀ b ∈ (greedyParts p hp chunks.flatten).1, b.length = p :=
    greedyParts_block_length p hp chunks.flatten.length chunks.flatten rfl
  have hflat : (greedyParts p hp chunks.flatten).1.flatten ++
      (greedyParts p hp chunks.flatten).2 = chunks.flatten :=
    greedyParts_flatten p hp chunks.flatten.length chunks.flatten rfl
  have hremle : (greedyParts p hp chunks.flatten).2.length ≤ p :=
    greedyParts_rem_le p hp chunks.flatten.length chunks.flatten rfl
  have hremne : (greedyParts p hp chunks.flatten).2 ≠ [] := by
    refine greedyParts_rem_ne_nil p hp chunks.flatten.length chunks.flatten rfl ?_
    intro h
    rw [h] at hlen
    simp at hlen
  set L := chunks.flatten with hL
  set blocks := (greedyParts p hp L).1 with hblocks
  set rem := (greedyParts p hp L).2 with hrem
  set k := blocks.length with hk
  have hr1 : 1 ≤ rem.length := List.length_pos.mpr hremne
  have hlenL : L.length = k * p + rem.length := by
    have hq := congrArg List.length hflat
    rw [List.length_append, flatten_length_of_blocks p blocks hball, ← hk] at hq
    omega
  have hk1 : 1 ≤ k := by
    rcases Nat.eq_zero_or_pos k with hk0 | hk0
    · exfalso
      rw [hk0, Nat.zero_mul, Nat.zero_add] at hlenL
      omega
    · exact hk0
  have hcomb : numberFrom 1 blocks ++ [(k + 1, rem)] =
      numberFrom 1 (blocks ++ [rem]) := by
    rw [numberFrom_append 1 blocks [rem]]
    simp only [numberFrom]
    rw [Nat.add_comm 1 k]
  have hfin : FileUploadStream.finish d p hp chunks =
      .multi (numberFrom 1 blocks ++ [(k + 1, rem)])
        ((numberFrom 1 blocks ++ [(k + 1, rem)]).map
          fun u => hexStringOfBytes (d u.2)) := by
    rw [FileUploadStream.finish, writeAll_eq d p hp chunks]
    simp only [numberFrom_length, ← hL, ← hblocks, ← hrem, ← hk]
    rw [if_neg (by omega)]
    simp only [FileUploadStream.uploadPartCall, PendingPart.finalize,
      numberFrom_length, ← hk]
  refine ⟨numberFrom 1 blocks, (k + 1, rem), hfin, ?_, ?_, ?_, ?_, ?_⟩
  · rw [hcomb, numberFrom_map_fst]
    congr 1
    rw [numberFrom_length]
    simp
  · rw [numberFrom_length]
    symm
    apply Nat.div_eq_of_lt_le
    · rw [show (k + 1) * p = k * p + p by ring]
      omega
    · rw [show (k + 1 + 1) * p = k * p + 2 * p by ring]
      omega
  · intro u hu
    have hsnd : u.2 ∈ (numberFrom 1 blocks).map Prod.snd :=
      List.mem_map_of_mem Prod.snd hu
    rw [numberFrom_map_snd] at hsnd
    exact hball u.2 hsnd
  · show rem.length = _
    rcases Nat.lt_or_ge rem.length p with hcase | hcase
    · rw [if_neg, show L.length % p = rem.length from ?_]
      · rw [hlenL, Nat.mul_comm, Nat.mul_add_mod, Nat.mod_eq_of_lt hcase]
      · rw [hlenL, Nat.mul_comm, Nat.mul_add_mod, Nat.mod_eq_of_lt hcase]
        omega
    · have hrp : rem.length = p := by omega
      rw [if_pos, hrp]
      rw [hlenL, hrp, Nat.mul_comm, Nat.mul_add_mod, Nat.mod_self]
  · rw [hcomb, numberFrom_map_snd, List.flatten_append, List.flatten_cons,
      List.flatten_nil, List.append_nil]
    exact hflat

/-- C1 witness: with part size 2, the five-byte input 10 11 12 13 14
exceeds the part size, so the multi-part decomposition theorem applies
to it. -/
theorem c1_streaming_multipart_witness :
    0 < 2 ∧ 2 < ([[10, 11, 12, 13, 14]] : List (List Nat)).flatten.length ∧
    (∃ most last,
      FileUploadStream.finish constDigest 2 (by omega) [[10, 11, 12, 13, 14]] =
        .multi (most ++ [last])
          ((most ++ [last]).map fun u => hexStringOfBytes (constDigest u.2)) ∧
      (most ++ [last]).map Prod.fst = List.range' 1 (most.length + 1) ∧
      most.length + 1 =
        (([[10, 11, 12, 13, 14]] : List (List Nat)).flatten.length + 2 - 1) / 2 ∧
      (∀ u ∈ most, u.2.length = 2) ∧
      last.2.length =
        (if ([[10, 11, 12, 13, 14]] : List (List Nat)).flatten.length % 2 = 0
         then 2
         else ([[10, 11, 12, 13, 14]] : List (List Nat)).flatten.length % 2) ∧
      ((most ++ [last]).map Prod.snd).flatten =
        ([[10, 11, 12, 13, 14]] : List (List Nat)).flatten) :=
  ⟨by omega, by decide,
    c1_streaming_multipart constDigest 2 (by omega) [[10, 11, 12, 13, 14]]
      (by decide)⟩

/-- C9: a streaming upload whose input fits within one part buffer
reverts to the single-part path with the collected bytes, but the
request is issued in deferred-hash mode, not with the already-computed
digest: _uploadAsSinglePart reads pendingPart.digest without ever
ending the pending part, so the sha1 option is undefined and _upload
falls into the hex_digits_at_end branch, sending Content-Length plus 40
and a body trailer instead of the digest header the spec describes. -/
theorem c9_single_part_fallback_deferred_hash (d : List Nat → List Nat)
    (hd : ∀ bs, (d bs).length = 20) (p : Nat) (hp : 0 < p)
    (chunks : List (List Nat)) (hle : chunks.flatten.length ≤ p) :
    FileUploadStream.finish d p hp chunks =
      .single (SinglePartUpload.buildRequest d none
        chunks.flatten.length chunks.flatten) ∧
    (SinglePartUpload.buildRequest d none
      chunks.flatten.length chunks.flatten).sha1Header = "hex_digits_at_end" ∧
    (SinglePartUpload.buildRequest d none
      chunks.flatten.length chunks.flatten).contentLengthHeader =
      chunks.flatten.length + 40 ∧
    (SinglePartUpload.buildRequest d none
      chunks.flatten.length chunks.flatten).sha1Header ≠
      hexStringOfBytes (d chunks.flatten) := by
  refine ⟨?_, rfl, rfl, ?_⟩
  · rw [FileUploadStream.finish, writeAll_eq d p hp chunks,
      greedyParts_of_le p hp chunks.flatten hle]
    simp [numberFrom, PendingPart.bytes]
  · intro heq
    have heq2 : ("hex_digits_at_end" : String) = hexStringOfBytes (d chunks.flatten) :=
      heq
    have hlen40 : (hexStringOfBytes (d chunks.flatten)).data.length = 40 := by
      show (hexOfBytes (d chunks.flatten)).length = 40
      rw [hexOfBytes_length, hd]
    have h17 : ("hex_digits_at_end" : String).data.length = 17 := by decide
    rw [← heq2] at hlen40
    rw [h17] at hlen40
    exact absurd hlen40 (by decide)

/-- C9 witness: writing the five bytes of hello into a stream with part
size 5 and ending it produces the single-part fallback in deferred-hash
mode under the constant digest. -/
theorem c9_single_part_fallback_deferred_hash_witness :
    (∀ bs, (constDigest bs).length = 20) ∧ 0 < 5 ∧
    ([[104, 101, 108, 108, 111]] : List (List Nat)).flatten.length ≤ 5 ∧
    (FileUploadStream.finish constDigest 5 (by omega)
      [[104, 101, 108, 108, 111]] =
      .single (SinglePartUpload.buildRequest constDigest none
        ([[104, 101, 108, 108, 111]] : List (List Nat)).flatten.length
        ([[104, 101, 108, 108, 111]] : List (List Nat)).flatten) ∧
    (SinglePartUpload.buildRequest constDigest none
      ([[104, 101, 108, 108, 111]] : List (List Nat)).flatten.length
      ([[104, 101, 108, 108, 111]] : List (List Nat)).flatten).sha1Header =
      "hex_digits_at_end" ∧
    (SinglePartUpload.buildRequest constDigest none
      ([[104, 101, 108, 108, 111]] : List (List Nat)).flatten.length
      ([[104, 101, 108, 108, 111]] : List (List Nat)).flatten).contentLengthHeader =
      ([[104, 101, 108, 108, 111]] : List (List Nat)).flatten.length + 40 ∧
    (SinglePartUpload.buildRequest constDigest none
      ([[104, 101, 108, 108, 111]] : List (List Nat)).flatten.length
      ([[104, 101, 108, 108, 111]] : List (List Nat)).flatten).sha1Header ≠
      hexStringOfBytes (constDigest
        ([[104, 101, 108, 108, 111]] : List (List Nat)).flatten)) :=
  ⟨fun _ => rfl, by omega, by decide,
    c9_single_part_fallback_deferred_hash constDigest (fun _ => rfl) 5
      (by omega) [[104, 101, 108, 108, 111]] (by decide)⟩

end B2JS
